import Mathlib

/-!
Verification of the study-time tracker core (`src/script.js`).

The JavaScript core is shallowly embedded here:

* JS numbers are modelled as `JNum`: an exact rational for finite values
  plus the three special values `+Infinity`, `-Infinity` and `NaN`.
  Double rounding error is abstracted away; every quantity the claims
  touch (minute counts, millisecond differences, small literals) is far
  inside the exactly-representable range.
* JSON values (the result of `JSON.parse`) are modelled as `JSVal`.
  The durable `localStorage` slot is a `Blob`: absent, unparseable
  (either non-JSON text or the empty string), or a parsed `JSVal`.
* Stateful handlers become explicit state-passing functions; the storage
  effect of a handler is the returned `Blob`.
* `Number(x)` coercion is modelled by `toNumber`.  The string branch
  covers trimmed optional-sign decimal literals and `Infinity`; the
  array/object branch is modelled as `NaN` except `Number([]) = 0`
  (JS coerces those through `ToPrimitive`/`ToString`, which no claim
  exercises).
-/

set_option autoImplicit false

namespace StudyTracker

/-- A JavaScript number: a finite (exact rational) value, `+Infinity`,
`-Infinity`, or `NaN`. -/
inductive JNum where
  | finite (q : ℚ)
  | posInf
  | negInf
  | nan
  deriving DecidableEq, Repr

/-- A JSON value as returned by `JSON.parse`: `null`, a boolean, a number
(`JNum`, since e.g. `JSON.parse "1e999"` overflows to `+Infinity`), a
string, an array, or an object (field list; `JSON.parse` yields distinct
keys, duplicates resolve last-wins in `lookupField`). -/
inductive JSVal where
  | vnull
  | vbool (b : Bool)
  | vnum (n : JNum)
  | vstr (s : String)
  | varr (elems : List JSVal)
  | vobj (fields : List (String × JSVal))
  deriving Repr

/-- Last-wins field lookup, matching `JSON.parse`'s treatment of duplicate
keys (a later duplicate overwrites an earlier one). -/
def lookupField (k : String) : List (String × JSVal) → Option JSVal
  | [] => none
  | (k', v) :: rest =>
    match lookupField k rest with
    | some r => some r
    | none => if k' = k then some v else none

/-- Property access `v.k` on a JS value, `none` standing for `undefined`.
Access on `null` throws in JS; callers model the throwing site explicitly
(`loadData` reaches it only inside its `try`). -/
def getField : JSVal → String → Option JSVal
  | JSVal.vobj fields, k => lookupField k fields
  | _, _ => none

/-- Digit run to a natural number (the digits are already validated). -/
def digitsVal (cs : List Char) : ℕ :=
  cs.foldl (fun a c => a * 10 + (c.toNat - 48)) 0

/-- Unsigned decimal literal `Digits ('.' Digits?)?` to an exact rational;
`none` is `NaN`.  (JS also allows `.5`, hex and exponents; those forms are
outside the modelled subset and no claim uses them.) -/
def parseUnsignedDec (cs : List Char) : Option ℚ :=
  let intPart := cs.takeWhile Char.isDigit
  let rest := cs.dropWhile Char.isDigit
  if intPart.isEmpty then none
  else
    match rest with
    | [] => some (digitsVal intPart : ℚ)
    | '.' :: frac =>
      if frac.all Char.isDigit then
        some ((digitsVal intPart : ℚ) + (digitsVal frac : ℚ) / (10 : ℚ) ^ frac.length)
      else none
    | _ => none

/-- Unsigned part of JS string-to-number: `Infinity` or a decimal literal. -/
def strToNumberUnsigned (cs : List Char) : JNum :=
  if cs = "Infinity".toList then JNum.posInf
  else
    match parseUnsignedDec cs with
    | some q => JNum.finite q
    | none => JNum.nan

/-- Negate a JS number (ℚ has no `-0`; the distinction is invisible to
every operation this file models). -/
def jNeg : JNum → JNum
  | JNum.finite q => JNum.finite (-q)
  | JNum.posInf => JNum.negInf
  | JNum.negInf => JNum.posInf
  | JNum.nan => JNum.nan

/-- JS `Number(string)`: trim, empty is `0`, optional sign, then
`Infinity` or a decimal literal; anything else is `NaN`. -/
def strToNumber (s : String) : JNum :=
  match s.trim.toList with
  | [] => JNum.finite 0
  | '+' :: rest => strToNumberUnsigned rest
  | '-' :: rest => jNeg (strToNumberUnsigned rest)
  | rest => strToNumberUnsigned rest

/-- JS `Number(x)` coercion on the modelled values.  Arrays and objects
coerce via `ToPrimitive`/`ToString` in JS; that chain is modelled only in
the two cases with a primitive answer that needs no string round-trip
(`Number([]) = 0`, otherwise `NaN`) — no claim exercises the rest. -/
def toNumber : JSVal → JNum
  | JSVal.vnull => JNum.finite 0
  | JSVal.vbool b => JNum.finite (if b then 1 else 0)
  | JSVal.vnum n => n
  | JSVal.vstr s => strToNumber s
  | JSVal.varr [] => JNum.finite 0
  | JSVal.varr _ => JNum.nan
  | JSVal.vobj _ => JNum.nan

/-- `Number(x)` where `x` may be `undefined` (`Number(undefined) = NaN`). -/
def toNumberOpt : Option JSVal → JNum
  | none => JNum.nan
  | some v => toNumber v

/-- JS comparison `n > 0` (false for `NaN`, true for `+Infinity`). -/
def jgt0 : JNum → Bool
  | JNum.finite q => decide (0 < q)
  | JNum.posInf => true
  | JNum.negInf => false
  | JNum.nan => false

/-- JS comparison `n <= 0` (false for `NaN`). -/
def jle0 : JNum → Bool
  | JNum.finite q => decide (q ≤ 0)
  | JNum.posInf => false
  | JNum.negInf => true
  | JNum.nan => false

/-- JS `Number.isFinite`. -/
def jIsFinite : JNum → Bool
  | JNum.finite _ => true
  | _ => false

/-- JS addition. -/
def jAdd : JNum → JNum → JNum
  | JNum.nan, _ => JNum.nan
  | _, JNum.nan => JNum.nan
  | JNum.posInf, JNum.negInf => JNum.nan
  | JNum.negInf, JNum.posInf => JNum.nan
  | JNum.posInf, _ => JNum.posInf
  | _, JNum.posInf => JNum.posInf
  | JNum.negInf, _ => JNum.negInf
  | _, JNum.negInf => JNum.negInf
  | JNum.finite a, JNum.finite b => JNum.finite (a + b)

/-- JS subtraction. -/
def jSub : JNum → JNum → JNum
  | JNum.nan, _ => JNum.nan
  | _, JNum.nan => JNum.nan
  | JNum.posInf, JNum.posInf => JNum.nan
  | JNum.negInf, JNum.negInf => JNum.nan
  | JNum.posInf, _ => JNum.posInf
  | _, JNum.posInf => JNum.negInf
  | JNum.negInf, _ => JNum.negInf
  | _, JNum.negInf => JNum.posInf
  | JNum.finite a, JNum.finite b => JNum.finite (a - b)

/-- JS `Math.max` of two numbers: `NaN` if either is `NaN`. -/
def jMax : JNum → JNum → JNum
  | JNum.nan, _ => JNum.nan
  | _, JNum.nan => JNum.nan
  | JNum.posInf, _ => JNum.posInf
  | _, JNum.posInf => JNum.posInf
  | JNum.negInf, b => b
  | a, JNum.negInf => a
  | JNum.finite a, JNum.finite b => JNum.finite (max a b)

/-- JS `Math.round` on a finite value: round half toward `+Infinity`. -/
def jsRound (q : ℚ) : ℤ := ⌊q + 1 / 2⌋

/-- JS `x || 0`: replace the falsy numbers (`NaN`, `0`; `-0` coincides
with `0` in ℚ) with `0` and keep everything else. -/
def orZero : JNum → JNum
  | JNum.nan => JNum.finite 0
  | n => n

/-! ## The durable store (`loadData` / `saveData`, script.js lines 1–52) -/

/-- The single `localStorage` slot under `STORAGE_KEY`:
`absent` — `getItem` returns `null` (or the stored string is empty, which
is equally falsy at line 32); `unparseable` — `JSON.parse` throws;
`parsed v` — `JSON.parse` succeeds with value `v`. -/
inductive Blob where
  | absent
  | unparseable
  | parsed (v : JSVal)
  deriving Repr

/-- `const STORAGE_KEY = "studyTrackerData"`. -/
def STORAGE_KEY : String := "studyTrackerData"

/-- `const SUBJECTS = [...]` — the fixed closed subject set. -/
def SUBJECTS : List String := ["国語", "数学", "英語", "理科", "社会"]

/-- The persisted goal: `{ mode, targetMinutes }`.  `targetMinutes` is a
`JNum` because `loadData` keeps whatever `Number(...)` produced. -/
structure Goal where
  mode : String
  targetMinutes : JNum
  deriving DecidableEq, Repr

/-- The snapshot `loadData` returns: `records` stays the raw parsed array
(elements are not validated individually), `goal` is rebuilt per-field. -/
structure Snapshot where
  records : List JSVal
  goal : Goal
  deriving Repr

/-- `const defaultData = { records: [], goal: { mode: "weekly", targetMinutes: 300 } }`. -/
def defaultData : Snapshot :=
  { records := [], goal := { mode := "weekly", targetMinutes := JNum.finite 300 } }

/-- `loadData()` (lines 29–47).  `absent`/`unparseable` take the early
return resp. the `catch`; `parsed null` reaches `parsed.records`, which
throws on `null` and lands in the same `catch`.  Otherwise each field is
validated independently: `records` is kept iff `Array.isArray`, the goal
mode is forced to `"weekly"` either way, and `targetMinutes` is kept iff
`Number(parsed?.goal?.targetMinutes) > 0` (note: no finiteness check). -/
def loadData : Blob → Snapshot
  | Blob.absent => defaultData
  | Blob.unparseable => defaultData
  | Blob.parsed JSVal.vnull => defaultData
  | Blob.parsed v =>
    { records :=
        match getField v "records" with
        | some (JSVal.varr xs) => xs
        | _ => []
      goal :=
        { mode := "weekly"
          targetMinutes :=
            let n := toNumberOpt ((getField v "goal").bind (fun g => getField g "targetMinutes"))
            if jgt0 n then n else JNum.finite 300 } }

/-- `JSON.stringify` shape of a snapshot, as `JSON.parse` would read it
back.  (`stringify` would write `Infinity`/`NaN` durations as `null`; no
claim stores a non-finite duration, and the goal path only writes
`Math.round` of a finite value.) -/
def snapshotToJSVal (s : Snapshot) : JSVal :=
  JSVal.vobj
    [("records", JSVal.varr s.records),
     ("goal", JSVal.vobj
        [("mode", JSVal.vstr s.goal.mode),
         ("targetMinutes", JSVal.vnum s.goal.targetMinutes)])]

/-- `saveData(data)` (lines 50–52): one synchronous `setItem` overwriting
the slot with the serialized snapshot. -/
def saveData (data : Snapshot) (_store : Blob) : Blob :=
  Blob.parsed (snapshotToJSVal data)

/-- `loadData` as a storage transaction: it performs exactly one
`getItem` and no write, so it returns the slot unchanged together with
the decoded snapshot. -/
def loadDataM (store : Blob) : Blob × Snapshot :=
  (store, loadData store)

/-! ## Dates and aggregation (lines 58–88) -/

/-- A civil calendar date as carried by a `YYYY-MM-DD` record string. -/
structure CivilDate where
  year : ℕ
  month : ℕ
  day : ℕ
  deriving DecidableEq, Repr

/-- Two-digit zero padding: `String(n).padStart(2, "0")`. -/
def pad2 (n : ℕ) : String :=
  if n < 10 then "0" ++ toString n else toString n

/-- `formatDate(date)` (lines 59–64): the `YYYY-MM-DD` string for a local
calendar date. -/
def formatDate (d : CivilDate) : String :=
  toString d.year ++ "-" ++ pad2 d.month ++ "-" ++ pad2 d.day

/-- Leap-year test of the Gregorian calendar. -/
def isLeapYear (y : ℕ) : Bool :=
  y % 4 = 0 && (y % 100 ≠ 0 || y % 400 = 0)

/-- Days in a month (Gregorian). -/
def daysInMonth (y m : ℕ) : ℕ :=
  if m = 2 then (if isLeapYear y then 29 else 28)
  else if m = 4 ∨ m = 6 ∨ m = 9 ∨ m = 11 then 30
  else 31

/-- Whether a `CivilDate` is an actual calendar date; `new Date` on an
ISO string with an out-of-range component yields `Invalid Date`. -/
def validDate (d : CivilDate) : Bool :=
  1 ≤ d.month && d.month ≤ 12 && 1 ≤ d.day && d.day ≤ daysInMonth d.year d.month

/-- Day number of a civil date (days since 1970-01-01, Gregorian; the
standard era/year-of-era computation, specialised to `year ≥ 1`, which
covers every `YYYY-MM-DD` string). -/
def daysFromCivil (d : CivilDate) : ℤ :=
  let y := if d.month ≤ 2 then d.year - 1 else d.year
  let era := y / 400
  let yoe := y % 400
  let mp := if 2 < d.month then d.month - 3 else d.month + 9
  let doy := (153 * mp + 2) / 5 + (d.day - 1)
  let doe := yoe * 365 + yoe / 4 - yoe / 100 + doy
  (era * 146097 + doe : ℤ) - 719468

/-- Milliseconds per day. -/
def msPerDay : ℤ := 86400000

/-- A wall-clock instant: milliseconds on the local timeline plus the
local civil date it falls on (what `getFullYear`/`getMonth`/`getDate`
and `setHours(0,0,0,0)` read off it).  `msOfDay` is the offset past that
date's local midnight, so `ms = daysFromCivil date * msPerDay + msOfDay`
with `0 ≤ msOfDay < msPerDay`; theorems carry those bounds as hypotheses.
Daylight-saving shifts are abstracted away (local time is modelled as a
fixed offset). -/
structure Instant where
  date : CivilDate
  msOfDay : ℤ

/-- Epoch milliseconds of an instant. -/
def Instant.ms (t : Instant) : ℤ := daysFromCivil t.date * msPerDay + t.msOfDay

/-- A study record with the fields the aggregators read, at their intended
primitive types (stored records are raw JSON; the aggregation claims are
about records of this shape). -/
structure Rec where
  date : CivilDate
  subject : String
  duration : JNum
  deriving DecidableEq, Repr

/-- `new Date(record.date + "T00:00:00")` as epoch milliseconds: local
midnight of the record's date, or `none` for an invalid date (JS yields
`Invalid Date`, whose comparisons are all false). -/
def recDateMs (d : CivilDate) : Option ℤ :=
  if validDate d then some (daysFromCivil d * msPerDay) else none

/-- `filterLast7Days(records)` (lines 67–77) with `now = new Date()`
passed explicitly: `start` is local midnight of `now` moved back 6
calendar days, and a record is kept iff `start ≤ recDate ≤ now`
(an `Invalid Date` fails both comparisons). -/
def filterLast7Days (now : Instant) (records : List Rec) : List Rec :=
  let start := (daysFromCivil now.date - 6) * msPerDay
  records.filter (fun r =>
    match recDateMs r.date with
    | some t => start ≤ t && t ≤ now.ms
    | none => false)

/-- One `forEach` step of `calcSubjectTotals`: add `Number(duration) || 0`
into the bucket of `subject` when that bucket exists
(`totals[record.subject] !== undefined`), else leave the table alone. -/
def addToBucket (subject : String) (amount : JNum) :
    List (String × JNum) → List (String × JNum)
  | [] => []
  | (k, v) :: rest =>
    if k = subject then (k, jAdd v amount) :: rest
    else (k, v) :: addToBucket subject amount rest

/-- `calcSubjectTotals(records)` (lines 80–88): initialise every subject
of `SUBJECTS` to `0`, then fold the records in order. -/
def calcSubjectTotals (records : List Rec) : List (String × JNum) :=
  records.foldl
    (fun totals r => addToBucket r.subject (orZero r.duration) totals)
    (SUBJECTS.map (fun subject => (subject, JNum.finite 0)))

/-! ## Session timer and handlers (lines 16–20, 124–207, 210–226) -/

/-- `const currentSession = { subject: null, startAt: null }`; `startAt`
is the epoch milliseconds of the recorded start `Date`. -/
structure Session where
  subject : Option String
  startAt : Option ℤ
  deriving DecidableEq, Repr

/-- JS truthiness of a nullable string (`null` and `""` are falsy). -/
def truthyStr : Option String → Bool
  | none => false
  | some s => s ≠ ""

/-- `Math.max(1, Math.round((endAt - startAt) / 60000))` (lines 185–188). -/
def durationMinutes (startMs endMs : ℤ) : ℤ :=
  max 1 (jsRound (((endMs - startMs : ℤ) : ℚ) / 60000))

/-- The record object pushed by the stop handler (lines 191–195). -/
def mkStopRecord (subject : String) (startMs : ℤ) (endAt : Instant) : JSVal :=
  JSVal.vobj
    [("date", JSVal.vstr (formatDate endAt.date)),
     ("subject", JSVal.vstr subject),
     ("duration", JSVal.vnum (JNum.finite ((durationMinutes startMs endAt.ms : ℤ) : ℚ)))]

/-- What a handler leaves behind: the session singleton, the storage
slot, and the status text it displayed. -/
structure StopResult where
  session : Session
  store : Blob
  message : String
  deriving Repr

/-- The `endBtn` click handler (lines 178–206).  If no start time is
recorded or no subject is chosen (JS truthiness: `null` start, `null` or
empty subject) it only shows a message.  Otherwise it computes the
duration, appends the new record to a freshly loaded snapshot, saves, and
resets `currentSession.startAt` to `null` — the subject is left as is. -/
def stopAction (session : Session) (store : Blob) (endAt : Instant) : StopResult :=
  match session.startAt, session.subject with
  | some startMs, some subject =>
    if subject = "" then
      { session := session, store := store, message := "開始してから終了してください。" }
    else
      let dur := durationMinutes startMs endAt.ms
      let data := (loadDataM store).2
      let newData : Snapshot := { records := data.records ++ [mkStopRecord subject startMs endAt], goal := data.goal }
      { session := { subject := session.subject, startAt := none }
        store := saveData newData store
        message := "「" ++ subject ++ "」を " ++ toString dur ++ " 分記録しました。" }
  | _, _ =>
    { session := session, store := store, message := "開始してから終了してください。" }

/-- `Math.round` on a JS number (`±Infinity` and `NaN` pass through). -/
def jRound : JNum → JNum
  | JNum.finite q => JNum.finite ((jsRound q : ℤ) : ℚ)
  | x => x

/-- JS number-to-string, for the handler status messages (integral
finite values — the only ones the handlers interpolate — render exactly;
other shapes are approximated, which no claim observes). -/
def jnumDisplay : JNum → String
  | JNum.finite q => if q.den = 1 then toString q.num else toString q
  | JNum.posInf => "Infinity"
  | JNum.negInf => "-Infinity"
  | JNum.nan => "NaN"

/-- The `saveGoalBtn` click handler (lines 129–144) applied to
`value = Number(input.value)`.  A non-finite or `≤ 0` value is rejected
with a message and nothing is touched; otherwise the goal of a freshly
loaded snapshot is wholesale-replaced with
`{ mode: "weekly", targetMinutes: Math.round(value) }` and saved. -/
def goalSaveAction (value : JNum) (store : Blob) : Blob × String :=
  if !jIsFinite value || jle0 value then
    (store, "1以上の数値を入力してください。")
  else
    let data := (loadDataM store).2
    let newData : Snapshot :=
      { records := data.records, goal := { mode := "weekly", targetMinutes := jRound value } }
    (saveData newData store, "目標 " ++ jnumDisplay (jRound value) ++ " 分を保存しました。")

/-- The weekly-total reduce of `updateProgressView` (lines 214–217):
`sum + (Number(record.duration) || 0)` over the recent records. -/
def weeklyTotalCalc (recent : List Rec) : JNum :=
  recent.foldl (fun sum r => jAdd sum (orZero r.duration)) (JNum.finite 0)

/-- `Math.max(0, data.goal.targetMinutes - weeklyTotal)` (line 219). -/
def remainingCalc (targetMinutes weeklyTotal : JNum) : JNum :=
  jMax (JNum.finite 0) (jSub targetMinutes weeklyTotal)

/-- Lookup of `totals[s]` in the totals table (`none` is `undefined`). -/
def getTotal (s : String) : List (String × JNum) → Option JNum
  | [] => none
  | (k, v) :: rest => if k = s then some v else getTotal s rest

/-! ## Helper lemmas -/

/-- Adding into a different subject's bucket leaves a lookup unchanged. -/
theorem getTotal_addToBucket_ne (subject : String) (amount : JNum)
    (t : List (String × JNum)) (s : String) (h : s ≠ subject) :
    getTotal s (addToBucket subject amount t) = getTotal s t := by
  induction t with
  | nil => rfl
  | cons kv rest ih =>
    obtain ⟨k, v⟩ := kv
    by_cases hk : k = subject <;> by_cases hs : k = s <;>
      simp_all [addToBucket, getTotal]

/-- Adding into a subject's bucket maps its lookup through `jAdd`. -/
theorem getTotal_addToBucket_eq (subject : String) (amount : JNum)
    (t : List (String × JNum)) :
    getTotal subject (addToBucket subject amount t)
      = (getTotal subject t).map (fun v => jAdd v amount) := by
  induction t with
  | nil => rfl
  | cons kv rest ih =>
    obtain ⟨k, v⟩ := kv
    by_cases hk : k = subject <;> simp_all [addToBucket, getTotal]

/-- Folding records into a totals table turns a bucket lookup into a
per-subject accumulation over exactly the records of that subject. -/
theorem getTotal_foldRecords (records : List Rec) (t : List (String × JNum)) (s : String) :
    getTotal s (records.foldl (fun totals r => addToBucket r.subject (orZero r.duration) totals) t)
      = (getTotal s t).map
          (fun v0 => records.foldl
            (fun a r => if r.subject = s then jAdd a (orZero r.duration) else a) v0) := by
  induction records generalizing t with
  | nil => cases h : getTotal s t <;> simp [h]
  | cons r rs ih =>
    simp only [List.foldl_cons]
    rw [ih]
    by_cases hr : r.subject = s
    · simp only [hr]
      rw [getTotal_addToBucket_eq]
      cases h : getTotal s t <;> simp
    · rw [getTotal_addToBucket_ne _ _ _ _ (fun hs => hr hs.symm)]
      cases h : getTotal s t <;> simp [hr]

/-- Bucket lookups in the initial all-zero table. -/
theorem getTotal_init (s : String) :
    getTotal s (SUBJECTS.map (fun subject => (subject, JNum.finite 0)))
      = if s ∈ SUBJECTS then some (JNum.finite 0) else none := by
  simp only [SUBJECTS, List.map_cons, List.map_nil, getTotal, List.mem_cons,
    List.not_mem_nil, or_false]
  split_ifs <;> simp_all [eq_comm]

/-! ## Claim theorems -/

/-- C10: `loadData` never writes to durable storage: run as a storage
transaction it returns the slot exactly as it found it, for every stored
blob (absent, unparseable, or parsed — including malformed ones).  The
self-healing defaulting affects only the returned snapshot; a corrupt
blob stays in storage until a later `saveData` overwrites it. -/
theorem loadData_writes_nothing (store : Blob) : (loadDataM store).1 = store := rfl

/-- C9: the remaining-minutes computation is `max(0, target - total)`,
hence never negative; in particular `remaining(300, 350) = 0` and
`remaining(300, 100) = 200`. -/
theorem remaining_spec :
    (∀ target total : ℚ,
        remainingCalc (JNum.finite target) (JNum.finite total)
          = JNum.finite (max 0 (target - total)) ∧ 0 ≤ max 0 (target - total)) ∧
    remainingCalc (JNum.finite 300) (JNum.finite 350) = JNum.finite 0 ∧
    remainingCalc (JNum.finite 300) (JNum.finite 100) = JNum.finite 200 := by
  refine ⟨fun target total => ⟨rfl, le_max_left 0 _⟩, ?_, ?_⟩ <;>
    · simp only [remainingCalc, jSub, jMax]
      norm_num

/-- C7: a goal-save input that is non-numeric (`NaN`, hence not finite)
or non-finite or `≤ 0` is rejected: the handler returns with the
user-visible message and the stored blob — goal and records alike — is
exactly the one from before (the handler is a total function, so no
exception escapes it). -/
theorem goalSave_rejects_invalid (value : JNum) (store : Blob)
    (h : jIsFinite value = false ∨ jle0 value = true) :
    goalSaveAction value store = (store, "1以上の数値を入力してください。") := by
  have hguard : (!jIsFinite value || jle0 value) = true := by
    rcases h with h | h <;> simp [h]
  simp [goalSaveAction, hguard]

/-- C7 witness: saving `targetMinutes = 0` on the default store is
rejected and leaves the store untouched. -/
theorem goalSave_rejects_invalid_witness :
    jle0 (JNum.finite 0) = true ∧
    goalSaveAction (JNum.finite 0) (saveData defaultData Blob.absent)
      = (saveData defaultData Blob.absent, "1以上の数値を入力してください。") :=
  ⟨by decide,
   goalSave_rejects_invalid (JNum.finite 0) (saveData defaultData Blob.absent)
     (Or.inr (by decide))⟩

/-- C3 counterexample: the claim says every non-finite stored
`targetMinutes` (such as `Infinity`) yields 300, but the code checks only
`Number(x) > 0` with no finiteness test.  A stored blob
`{"records":[],"goal":{"mode":"weekly","targetMinutes":1e999}}` is valid
JSON and `JSON.parse` overflows `1e999` to `Infinity`; `loadData` keeps
it, returning `Infinity`, not 300. -/
theorem load_infinite_target_counterexample :
    (loadData (Blob.parsed (JSVal.vobj
        [("records", JSVal.varr []),
         ("goal", JSVal.vobj
            [("mode", JSVal.vstr "weekly"),
             ("targetMinutes", JSVal.vnum JNum.posInf)])]))).goal.targetMinutes
      = JNum.posInf ∧
    jIsFinite JNum.posInf = false ∧ JNum.posInf ≠ JNum.finite 300 :=
  ⟨rfl, rfl, by decide⟩

/-- C3 amended: for every parsed blob, `loadData` returns the coerced
stored value `Number(parsed?.goal?.targetMinutes)` exactly when that
coercion compares `> 0` — with no finiteness requirement, so `+Infinity`
is kept — and returns 300 exactly when it does not. -/
theorem load_target_gt0_iff (v : JSVal) :
    ((loadData (Blob.parsed v)).goal.targetMinutes
        = toNumberOpt ((getField v "goal").bind (fun g => getField g "targetMinutes"))
      ↔ jgt0 (toNumberOpt ((getField v "goal").bind (fun g => getField g "targetMinutes"))) = true) ∧
    (jgt0 (toNumberOpt ((getField v "goal").bind (fun g => getField g "targetMinutes"))) = false →
      (loadData (Blob.parsed v)).goal.targetMinutes = JNum.finite 300) := by
  have hload : (loadData (Blob.parsed v)).goal.targetMinutes
      = (if jgt0 (toNumberOpt ((getField v "goal").bind (fun g => getField g "targetMinutes")))
         then toNumberOpt ((getField v "goal").bind (fun g => getField g "targetMinutes"))
         else JNum.finite 300) := by
    cases v <;> rfl
  rw [hload]
  by_cases hc : jgt0 (toNumberOpt ((getField v "goal").bind (fun g => getField g "targetMinutes"))) = true
  · rw [if_pos hc]
    exact ⟨⟨fun _ => hc, fun _ => rfl⟩, fun hfalse => absurd hc (by simp [hfalse])⟩
  · rw [Bool.not_eq_true] at hc
    rw [if_neg (by simp [hc])]
    refine ⟨⟨fun heq => ?_, fun htrue => absurd htrue (by simp [hc])⟩, fun _ => rfl⟩
    have h300 : jgt0 (JNum.finite 300) = true := by decide
    rw [heq, hc] at h300
    exact absurd h300 (by decide)

/-- C3 amended witness: a stored finite `50` is kept; a stored `0` (not
`> 0`) falls back to 300. -/
theorem load_target_gt0_iff_witness :
    (loadData (Blob.parsed (JSVal.vobj
        [("goal", JSVal.vobj [("targetMinutes", JSVal.vnum (JNum.finite 50))])]))).goal.targetMinutes
      = JNum.finite 50 ∧
    (loadData (Blob.parsed (JSVal.vobj
        [("goal", JSVal.vobj [("targetMinutes", JSVal.vnum (JNum.finite 0))])]))).goal.targetMinutes
      = JNum.finite 300 :=
  ⟨(load_target_gt0_iff _).1.mpr (by decide),
   (load_target_gt0_iff _).2 (by decide)⟩

/-- C1 counterexample: the claim says a successful `stop()` resets the
session to `{subject: null, startAt: null}`, but the handler only sets
`currentSession.startAt = null` (line 201) and leaves the subject
selected.  Concretely, stopping a running `数学` session succeeds
(`startAt` is cleared, so the success path ran) yet the subject is still
`数学`, not `null`. -/
theorem stop_keeps_subject_counterexample :
    (stopAction ⟨some "数学", some 0⟩ (saveData defaultData Blob.absent)
        ⟨⟨1970, 1, 1⟩, 0⟩).session.startAt = none ∧
    (stopAction ⟨some "数学", some 0⟩ (saveData defaultData Blob.absent)
        ⟨⟨1970, 1, 1⟩, 0⟩).session.subject ≠ none :=
  ⟨rfl, by decide⟩

/-- C1 amended: after every successful `stop()` (start time recorded,
subject selected and non-empty) the session's `startAt` is reset to
`null` while the subject is retained unchanged — the machine returns to
`SubjectSelected` with the old subject, not to `Idle`. -/
theorem stop_resets_startAt_keeps_subject (session : Session) (store : Blob)
    (endAt : Instant) (startMs : ℤ) (subject : String)
    (hstart : session.startAt = some startMs)
    (hsub : session.subject = some subject) (hne : subject ≠ "") :
    (stopAction session store endAt).session.startAt = none ∧
    (stopAction session store endAt).session.subject = session.subject := by
  simp [stopAction, hstart, hsub, hne]

/-- C1 amended witness: the concrete successful stop from the
counterexample indeed clears `startAt` and keeps the subject. -/
theorem stop_resets_startAt_keeps_subject_witness :
    (stopAction ⟨some "数学", some 0⟩ Blob.absent ⟨⟨1970, 1, 1⟩, 0⟩).session.startAt = none ∧
    (stopAction ⟨some "数学", some 0⟩ Blob.absent ⟨⟨1970, 1, 1⟩, 0⟩).session.subject = some "数学" :=
  stop_resets_startAt_keeps_subject ⟨some "数学", some 0⟩ Blob.absent ⟨⟨1970, 1, 1⟩, 0⟩
    0 "数学" rfl rfl (by decide)

/-- C2 (code bug): the input `0.4` passes the guard — it is finite and
not `≤ 0`, so by the claim's own precondition it is accepted — yet the
goal persisted by the save carries `targetMinutes = Math.round(0.4) = 0`,
which is not `> 0`.  The stored invariant `goal.targetMinutes > 0` is
therefore not preserved by every accepted save; the handler's own
rejection message ("1以上の数値を入力してください。", demanding at least 1)
shows the guard `value <= 0` is a slip. -/
theorem goalSave_accepts_fraction_persists_zero :
    jIsFinite (JNum.finite (2 / 5)) = true ∧ jgt0 (JNum.finite (2 / 5)) = true ∧
    (goalSaveAction (JNum.finite (2 / 5)) (saveData defaultData Blob.absent)).1
      = Blob.parsed (JSVal.vobj
          [("records", JSVal.varr []),
           ("goal", JSVal.vobj
              [("mode", JSVal.vstr "weekly"),
               ("targetMinutes", JSVal.vnum (JNum.finite 0))])]) := by
  refine ⟨rfl, ?_, ?_⟩
  · simp only [jgt0, decide_eq_true_eq]
    norm_num
  · have hguard : (!jIsFinite (JNum.finite (2 / 5)) || jle0 (JNum.finite (2 / 5))) = false := by
      simp only [jIsFinite, jle0, Bool.not_true, Bool.false_or, decide_eq_false_iff_not]
      norm_num
    have hround : jRound (JNum.finite (2 / 5)) = JNum.finite 0 := by
      have h : jsRound (2 / 5) = 0 := by
        simp only [jsRound]
        norm_num
      simp [jRound, h]
    simp [goalSaveAction, hguard, hround, loadDataM, saveData]
    rfl

/-- C4: `loadData` validates `records` and `goal` independently on every
blob that parses as an object: each returned field depends only on its
own stored field; a non-array `records` yields `[]` while a goal that
coerces to a finite `q > 0` is kept; a stored records array is kept while
a goal that does not coerce `> 0` falls back to the default goal; and the
shapes whose field access throws in JS (non-JSON text, `null`) are caught
and degrade to the full default — the embedding is a total function, so
nothing propagates out of `loadData`. -/
theorem load_per_field_validation :
    (∀ f1 f2 : List (String × JSVal),
        lookupField "goal" f1 = lookupField "goal" f2 →
        (loadData (Blob.parsed (JSVal.vobj f1))).goal
          = (loadData (Blob.parsed (JSVal.vobj f2))).goal) ∧
    (∀ f1 f2 : List (String × JSVal),
        lookupField "records" f1 = lookupField "records" f2 →
        (loadData (Blob.parsed (JSVal.vobj f1))).records
          = (loadData (Blob.parsed (JSVal.vobj f2))).records) ∧
    (∀ (fields : List (String × JSVal)) (q : ℚ),
        (∀ xs, lookupField "records" fields ≠ some (JSVal.varr xs)) →
        toNumberOpt ((lookupField "goal" fields).bind (fun g => getField g "targetMinutes"))
          = JNum.finite q →
        0 < q →
        loadData (Blob.parsed (JSVal.vobj fields))
          = { records := [], goal := { mode := "weekly", targetMinutes := JNum.finite q } }) ∧
    (∀ (fields : List (String × JSVal)) (xs : List JSVal),
        lookupField "records" fields = some (JSVal.varr xs) →
        jgt0 (toNumberOpt ((lookupField "goal" fields).bind (fun g => getField g "targetMinutes")))
          = false →
        loadData (Blob.parsed (JSVal.vobj fields)) = { records := xs, goal := defaultData.goal }) ∧
    loadData Blob.unparseable = defaultData ∧ loadData (Blob.parsed JSVal.vnull) = defaultData := by
  have hexp : ∀ fields : List (String × JSVal),
      loadData (Blob.parsed (JSVal.vobj fields))
        = { records :=
              match lookupField "records" fields with
              | some (JSVal.varr xs) => xs
              | _ => []
            goal :=
              { mode := "weekly"
                targetMinutes :=
                  let n := toNumberOpt
                    ((lookupField "goal" fields).bind (fun g => getField g "targetMinutes"))
                  if jgt0 n then n else JNum.finite 300 } } := fun fields => rfl
  refine ⟨?_, ?_, ?_, ?_, rfl, rfl⟩
  · intro f1 f2 h
    rw [hexp f1, hexp f2]
    simp only [h]
  · intro f1 f2 h
    rw [hexp f1, hexp f2]
    simp only [h]
  · intro fields q hrec hgoal hq
    have hq' : jgt0 (JNum.finite q) = true := by
      simp only [jgt0, decide_eq_true_eq]
      exact hq
    have hrecords : (match lookupField "records" fields with
        | some (JSVal.varr xs) => xs
        | _ => ([] : List JSVal)) = [] := by
      rcases hcase : lookupField "records" fields with _ | v
      · rfl
      · cases v
        case varr xs => exact absurd hcase (hrec xs)
        all_goals rfl
    rw [hexp fields]
    simp [hgoal, hq', hrecords]
  · intro fields xs hrec hfalse
    rw [hexp fields]
    simp [hrec, hfalse, defaultData]

/-- C4 witness: a blob with a non-array `records` and a goal of 120 keeps
the goal and defaults the records; a blob with a one-element records
array and a goal of 0 keeps the records and defaults the goal. -/
theorem load_per_field_validation_witness :
    loadData (Blob.parsed (JSVal.vobj
        [("records", JSVal.vstr "oops"),
         ("goal", JSVal.vobj [("targetMinutes", JSVal.vnum (JNum.finite 120))])]))
      = { records := [], goal := { mode := "weekly", targetMinutes := JNum.finite 120 } } ∧
    loadData (Blob.parsed (JSVal.vobj
        [("records", JSVal.varr [JSVal.vstr "r"]),
         ("goal", JSVal.vobj [("targetMinutes", JSVal.vnum (JNum.finite 0))])]))
      = { records := [JSVal.vstr "r"], goal := defaultData.goal } := by
  constructor
  · refine load_per_field_validation.2.2.1 _ 120 ?_ rfl (by norm_num)
    intro xs h
    simp [lookupField] at h
  · exact load_per_field_validation.2.2.2.1 _ [JSVal.vstr "r"] rfl (by decide)

/-- C5: on every successful stop the handler appends `mkStopRecord` to
the freshly loaded snapshot and saves it; that record's `duration` field
is exactly `max(1, round((endAt - startAt) / 60000))` minutes, and with
zero elapsed wall-clock time the duration is 1. -/
theorem stop_duration_spec (session : Session) (store : Blob) (endAt : Instant)
    (startMs : ℤ) (subject : String)
    (hstart : session.startAt = some startMs)
    (hsub : session.subject = some subject) (hne : subject ≠ "") :
    getField (mkStopRecord subject startMs endAt) "duration"
      = some (JSVal.vnum (JNum.finite
          ((max 1 (jsRound (((endAt.ms - startMs : ℤ) : ℚ) / 60000)) : ℤ) : ℚ))) ∧
    (stopAction session store endAt).store
      = Blob.parsed (snapshotToJSVal
          { records := (loadData store).records ++ [mkStopRecord subject startMs endAt],
            goal := (loadData store).goal }) ∧
    (endAt.ms = startMs → durationMinutes startMs endAt.ms = 1) := by
  refine ⟨rfl, ?_, ?_⟩
  · simp [stopAction, hstart, hsub, hne, loadDataM, saveData]
  · intro h
    rw [h]
    simp only [durationMinutes, jsRound, sub_self, Int.cast_zero, zero_div, zero_add]
    norm_num

/-- C5 witness: a stop of a `数学` session started at epoch millisecond 0
and stopped at the same instant records duration 1 and appends exactly
that record. -/
theorem stop_duration_spec_witness :
    durationMinutes 0 (Instant.ms ⟨⟨1970, 1, 1⟩, 0⟩) = 1 ∧
    (stopAction ⟨some "数学", some 0⟩ Blob.absent ⟨⟨1970, 1, 1⟩, 0⟩).store
      = Blob.parsed (snapshotToJSVal
          { records := (loadData Blob.absent).records
              ++ [mkStopRecord "数学" 0 ⟨⟨1970, 1, 1⟩, 0⟩],
            goal := (loadData Blob.absent).goal }) := by
  have h := stop_duration_spec ⟨some "数学", some 0⟩ Blob.absent ⟨⟨1970, 1, 1⟩, 0⟩
    0 "数学" rfl rfl (by decide)
  exact ⟨h.2.2 (by decide), h.2.1⟩

/-- C6 counterexample: with `now` on 2024-03-10 the window starts at
midnight of 2024-03-04 (`10 - 6`), so a record dated 2024-03-03 — which
the claim's example says is kept — is excluded by the filter. -/
theorem filterLast7Days_example_counterexample :
    filterLast7Days ⟨⟨2024, 3, 10⟩, 0⟩ [⟨⟨2024, 3, 3⟩, "数学", JNum.finite 30⟩] = [] := rfl

/-- C6 amended: the filter keeps exactly the records of the list whose
valid date, as local midnight, lies in `[midnight(now) - 6 days, now]`
with both boundaries inclusive — equivalently whose calendar day lies in
the 7-day window `[day(now) - 6, day(now)]`.  With `now` on 2024-03-10
this keeps a record dated 2024-03-04 and excludes one dated 2024-03-03
(the claim's example is off by one day). -/
theorem filterLast7Days_window (now : Instant) (records : List Rec) (r : Rec)
    (h0 : 0 ≤ now.msOfDay) (h1 : now.msOfDay < msPerDay) :
    r ∈ filterLast7Days now records
      ↔ r ∈ records ∧ validDate r.date = true
          ∧ daysFromCivil now.date - 6 ≤ daysFromCivil r.date
          ∧ daysFromCivil r.date ≤ daysFromCivil now.date := by
  have hD : msPerDay = 86400000 := rfl
  rw [hD] at h1
  simp only [filterLast7Days, List.mem_filter, recDateMs, Instant.ms, msPerDay]
  by_cases hv : validDate r.date = true
  · simp only [hv, if_true, Bool.and_eq_true, decide_eq_true_eq]
    constructor
    · rintro ⟨hr, ha, hb⟩
      refine ⟨hr, trivial, ?_, ?_⟩ <;> omega
    · rintro ⟨hr, -, ha, hb⟩
      refine ⟨hr, ?_, ?_⟩ <;> omega
  · rw [Bool.not_eq_true] at hv
    simp [hv]

/-- C6 amended witness: on 2024-03-10 (noon) the record dated 2024-03-04
is kept and the record dated 2024-03-03 is excluded. -/
theorem filterLast7Days_window_witness :
    (⟨⟨2024, 3, 4⟩, "数学", JNum.finite 30⟩ : Rec)
        ∈ filterLast7Days ⟨⟨2024, 3, 10⟩, 43200000⟩
            [⟨⟨2024, 3, 4⟩, "数学", JNum.finite 30⟩, ⟨⟨2024, 3, 3⟩, "数学", JNum.finite 30⟩] ∧
    ¬ ((⟨⟨2024, 3, 3⟩, "数学", JNum.finite 30⟩ : Rec)
        ∈ filterLast7Days ⟨⟨2024, 3, 10⟩, 43200000⟩
            [⟨⟨2024, 3, 4⟩, "数学", JNum.finite 30⟩, ⟨⟨2024, 3, 3⟩, "数学", JNum.finite 30⟩]) := by
  constructor
  · exact (filterLast7Days_window ⟨⟨2024, 3, 10⟩, 43200000⟩ _ _ (by decide) (by decide)).mpr
      ⟨List.mem_cons_self _ _, by decide, by decide, by decide⟩
  · intro hmem
    have h := (filterLast7Days_window ⟨⟨2024, 3, 10⟩, 43200000⟩ _ _
      (by decide) (by decide)).mp hmem
    exact absurd h.2.2.1 (by decide)

/-- C8: the per-subject totals table assigns to every subject of the
fixed closed set the accumulated `Number(duration) || 0` of exactly that
subject's records (starting from 0), and has no bucket at all for a
subject outside the closed set — such records are silently ignored. -/
theorem subjectTotals_spec (records : List Rec) (s : String) (hs : s ∈ SUBJECTS) :
    getTotal s (calcSubjectTotals records)
      = some (records.foldl
          (fun a r => if r.subject = s then jAdd a (orZero r.duration) else a)
          (JNum.finite 0)) ∧
    ∀ s', s' ∉ SUBJECTS → getTotal s' (calcSubjectTotals records) = none := by
  constructor
  · unfold calcSubjectTotals
    rw [getTotal_foldRecords, getTotal_init, if_pos hs]
    rfl
  · intro s' hs'
    unfold calcSubjectTotals
    rw [getTotal_foldRecords, getTotal_init, if_neg hs']
    rfl

/-- C8 witness: over the spec's example list the 数学 bucket is 50, and
the unknown subject has no bucket (its record is ignored). -/
theorem subjectTotals_spec_witness :
    "数学" ∈ SUBJECTS ∧
    getTotal "数学" (calcSubjectTotals
        [⟨⟨2024, 3, 3⟩, "数学", JNum.finite 30⟩,
         ⟨⟨2024, 3, 3⟩, "数学", JNum.finite 20⟩,
         ⟨⟨2024, 3, 3⟩, "unknown", JNum.finite 99⟩])
      = some (JNum.finite 50) ∧
    getTotal "unknown" (calcSubjectTotals
        [⟨⟨2024, 3, 3⟩, "数学", JNum.finite 30⟩,
         ⟨⟨2024, 3, 3⟩, "数学", JNum.finite 20⟩,
         ⟨⟨2024, 3, 3⟩, "unknown", JNum.finite 99⟩])
      = none := by
  have h := subjectTotals_spec
      [⟨⟨2024, 3, 3⟩, "数学", JNum.finite 30⟩,
       ⟨⟨2024, 3, 3⟩, "数学", JNum.finite 20⟩,
       ⟨⟨2024, 3, 3⟩, "unknown", JNum.finite 99⟩] "数学" (by decide)
  refine ⟨by decide, ?_, h.2 "unknown" (by decide)⟩
  rw [h.1]
  simp [jAdd, orZero]
  norm_num

end StudyTracker
